import Mathlib

/-!
Verification of the Xantrex RV-C → Venus OS bridge (`xantrex-service.py`).

The Python source is shallowly embedded below.  Machine floats are modelled
as exact rationals (`ℚ`), Python byte strings as `List ℕ` of byte values,
Python dicts as association lists that preserve insertion order exactly as
CPython dicts do (update-in-place on existing keys, append on new keys),
and Python sets of source addresses as duplicate-free lists.  Fallible
operations return `Option`/`Except` values.  Wall-clock time
(`time.monotonic()`) is passed in explicitly as the `now` argument of each
inbound frame.
-/

namespace Xantrex

/-- Python `round(x)` to the nearest integer with ties to even (banker's
rounding), on exact rationals. -/
def pyRoundInt (x : ℚ) : ℤ :=
  let f : ℤ := ⌊x⌋
  let r : ℚ := x - (f : ℚ)
  if r < 1/2 then f
  else if 1/2 < r then f + 1
  else if 2 ∣ f then f else f + 1

/-- Python `round(x, n)`: round to `n` decimal places, ties to even. -/
def pyRound (x : ℚ) (n : ℕ) : ℚ :=
  (pyRoundInt (x * 10 ^ n) : ℚ) / 10 ^ n

/-- A byte string: list of byte values. -/
abbrev Bytes := List ℕ

section AssocList

variable {α β : Type} [DecidableEq α]

/-- Lookup in an insertion-ordered association list (CPython dict read). -/
def alookup : List (α × β) → α → Option β
  | [], _ => none
  | (k, v) :: t, a => if k = a then some v else alookup t a

/-- CPython dict assignment `d[a] = b`: update in place when the key exists,
append at the end otherwise. -/
def ainsert : List (α × β) → α → β → List (α × β)
  | [], a, b => [(a, b)]
  | (k, v) :: t, a, b => if k = a then (a, b) :: t else (k, v) :: ainsert t a b

/-- CPython dict deletion `del d[a]`.  Dict keys are unique, so removing
every pair with key `a` coincides with removing the one entry. -/
def aerase : List (α × β) → α → List (α × β)
  | [], _ => []
  | (k, v) :: t, a => if k = a then aerase t a else (k, v) :: aerase t a

end AssocList

/-! ## §4.1 Sentinel-aware scalar decoders (source lines 218–313) -/

/-- Raw little-endian unsigned 16-bit read (`struct.Struct('<H')`). -/
def u16le (d : Bytes) (o : ℕ) : ℕ := d.getD o 0 + 256 * d.getD (o + 1) 0

/-- Raw big-endian unsigned 16-bit read (`struct.Struct('>H')`). -/
def u16be (d : Bytes) (o : ℕ) : ℕ := 256 * d.getD o 0 + d.getD (o + 1) 0

/-- Raw little-endian unsigned 32-bit read (`struct.Struct('<I')`). -/
def u32le (d : Bytes) (o : ℕ) : ℕ :=
  d.getD o 0 + 256 * d.getD (o + 1) 0 + 65536 * d.getD (o + 2) 0 +
    16777216 * d.getD (o + 3) 0

/-- Two's-complement reinterpretation of a `w`-bit unsigned value. -/
def toSigned (w : ℕ) (u : ℕ) : ℤ :=
  if 2 ^ (w - 1) ≤ u then (u : ℤ) - 2 ^ w else (u : ℤ)

/-- Raw signed 16-bit read, little or big endian per `byteorder`. -/
def s16raw (byteorder : String) (d : Bytes) (o : ℕ) : ℤ :=
  toSigned 16 (if byteorder = "little" then u16le d o else u16be d o)

/-- Raw signed 32-bit little-endian read (`struct.Struct('<i')`). -/
def s32raw (d : Bytes) (o : ℕ) : ℤ := toSigned 32 (u32le d o)

/-- `safe_u8(data, offset, scale)`: unsigned 8-bit, `0xFF` ⇒ NA. -/
def safe_u8 (data : Bytes) (offset : ℕ) (scale : ℚ := 1) : Option ℚ :=
  if data.length ≤ offset then none
  else
    let value := data.getD offset 0
    if value = 0xFF then none
    else
      let result : ℚ := (value : ℚ) * scale
      if scale ≠ 1 then some (pyRound result 3) else some result

/-- `safe_u16(data, offset, scale, byteorder)`: unsigned 16-bit, `0xFFFF` ⇒ NA. -/
def safe_u16 (data : Bytes) (offset : ℕ) (scale : ℚ := 1)
    (byteorder : String := "little") : Option ℚ :=
  if data.length < offset + 2 then none
  else
    let raw := if byteorder = "little" then u16le data offset else u16be data offset
    if raw = 0xFFFF then none
    else if scale = 1 then some (raw : ℚ)
    else some (pyRound ((raw : ℚ) * scale) 3)

/-- `safe_u32(data, offset, scale)`: unsigned 32-bit LE, `0xFFFFFFFF` ⇒ NA. -/
def safe_u32 (data : Bytes) (offset : ℕ) (scale : ℚ := 1) : Option ℚ :=
  if data.length < offset + 4 then none
  else
    let raw := u32le data offset
    if raw = 0xFFFFFFFF then none
    else if scale = 1 then some (raw : ℚ)
    else some (pyRound ((raw : ℚ) * scale) 3)

/-- `safe_s8(data, offset, scale)`: signed 8-bit, `0x7F` ⇒ NA. -/
def safe_s8 (data : Bytes) (offset : ℕ) (scale : ℚ := 1) : Option ℚ :=
  if data.length ≤ offset then none
  else
    let value := data.getD offset 0
    if value = 0x7F then none
    else
      let signed : ℤ := if value &&& 0x80 ≠ 0 then (value : ℤ) - 256 else (value : ℤ)
      let result : ℚ := (signed : ℚ) * scale
      if scale ≠ 1 then some (pyRound result 3) else some result

/-- `safe_s16(data, offset, scale, byteorder)`: signed 16-bit, `0x7FFF` ⇒ NA.
Unlike the unsigned decoders it rounds even when `scale = 1`. -/
def safe_s16 (data : Bytes) (offset : ℕ) (scale : ℚ := 1)
    (byteorder : String := "little") : Option ℚ :=
  if data.length < offset + 2 then none
  else
    let raw := s16raw byteorder data offset
    if raw = 0x7FFF then none else some (pyRound ((raw : ℚ) * scale) 3)

/-- `safe_s32(data, offset, scale)`: signed 32-bit LE, `0x7FFFFFFF` ⇒ NA. -/
def safe_s32 (data : Bytes) (offset : ℕ) (scale : ℚ := 1) : Option ℚ :=
  if data.length < offset + 4 then none
  else
    let raw := s32raw data offset
    if raw = 0x7FFFFFFF then none else some (pyRound ((raw : ℚ) * scale) 3)

/-! ## §4.2 CAN-ID decomposition (source lines 1272–1274) -/

/-- `pgn = (can_id >> 8) & 0x3FFFF` — PGN from bits 8–25 (18 bits). -/
def decompose_pgn (can_id : ℕ) : ℕ := (can_id >>> 8) &&& 0x3FFFF

/-- `src = can_id & 0xFF` — source address from bits 0–7. -/
def decompose_src (can_id : ℕ) : ℕ := can_id &&& 0xFF

/-- `dgn = pgn` — in RV-C the DGN is the PGN. -/
def decompose_dgn (can_id : ℕ) : ℕ := decompose_pgn can_id

/-- Modelled from the spec: `DecomposedId.priority` (§3, §4.2) — the priority
field in bits 26–28 of the 29-bit identifier.  `handle_can_frame` extracts
only `pgn`, `src` and `dgn`; no code in the source reads the priority back
out of an identifier. -/
def decompose_priority (can_id : ℕ) : ℕ := (can_id >>> 26) &&& 0x7

/-- Modelled from the spec: "synthesize an identifier from a
(priority, pgn, sourceAddress) triple" (§8).  The source only builds
fixed-priority request identifiers (`send_pgn_request`, line 1002:
`can_id = 0x18EA0000 | (da << 8) | sa`); the general synthesizer places the
priority in bits 26–28, the PGN in bits 8–25 and the source address in
bits 0–7. -/
def mk_can_id (priority pgn sourceAddress : ℕ) : ℕ :=
  priority * 2 ^ 26 + pgn * 2 ^ 8 + sourceAddress

/-- The request identifier built by `send_pgn_request` (line 1002):
`0x18EA0000 | (da << 8) | sa`. -/
def request_can_id (da sa : ℕ) : ℕ := 0x18EA0000 ||| (da <<< 8) ||| sa

/-! ## §4.4/§4.5 Reassembled-payload classification (source lines 1175–1196) -/

/-- `payload.decode("ascii", "ignore")`: non-ASCII bytes are dropped. -/
def asciiIgnore (p : Bytes) : Bytes := p.filter (fun b => decide (b < 128))

/-- `str.upper()` on one ASCII byte value. -/
def upByte (b : ℕ) : ℕ := if 97 ≤ b ∧ b ≤ 122 then b - 32 else b

/-- The `"XANTREX"` marker as ASCII byte values. -/
def xantrexMarker : Bytes := [88, 65, 78, 84, 82, 69, 88]

/-- Python `needle in haystack` on byte lists: contiguous-substring test. -/
def occursIn (needle : List ℕ) : List ℕ → Bool
  | [] => needle.isEmpty
  | a :: t => needle.isPrefixOf (a :: t) || occursIn needle t

/-- `"XANTREX" in payload.decode("ascii","ignore").strip("\x00 ").strip().upper()`
(lines 1175–1181).  The two `strip` calls only remove NUL, space and
whitespace characters from the ends of the text; the marker contains none of
those characters, so stripping cannot change whether the marker occurs and
is omitted here. -/
def containsXantrex (p : Bytes) : Bool :=
  occursIn xantrexMarker ((asciiIgnore p).map upByte)

/-! ## §4.4 Multi-frame reassembler (source lines 1106–1202) -/

/-- One per-source reassembly entry (`multiframe_assemblies[src]`,
lines 1125–1132).  `need` is an `ℤ` because CPython decrements it below zero
when an announce declares zero packets.  `consumed` is ghost instrumentation
counting the TP.DT segments accepted since the announce; the Python dict has
no such key and no code path reads it. -/
structure MFEntry where
  len : ℕ
  need : ℤ
  seq : ℕ
  pgn : ℕ
  buf : Bytes
  deadline : ℚ
  consumed : ℕ
deriving DecidableEq, Repr

/-- Mutable service state touched by the frame-processing path
(`XantrexService.__init__`, lines 746–762).  The last three fields are ghost
instrumentation: `requests_sent` counts identity-claim requests issued from
the frame path (line 1296), `first_seen_log` records each DGN logged as
`[UNMAPPED]` first seen (line 1346), and `unmapped_events` records every hit
of the unmapped branch (line 1335). -/
structure SvcState where
  xantrex_sources : List (ℕ × ℕ)
  SA_toSkip : List ℕ
  multiframe_assemblies : List (ℕ × MFEntry)
  unmapped_counts : List (ℕ × ℕ)
  unmapped_seen : List ℕ
  requests_sent : ℕ
  first_seen_log : List ℕ
  unmapped_events : List ℕ
deriving DecidableEq, Repr

/-- The state set up by `__init__` (lines 752–762): the source registry is
hard-coded to the two static fallback addresses, everything else empty. -/
def initState : SvcState :=
  { xantrex_sources := [(0x42, 129), (0xD0, 128)]
    SA_toSkip := []
    multiframe_assemblies := []
    unmapped_counts := []
    unmapped_seen := []
    requests_sent := 0
    first_seen_log := []
    unmapped_events := [] }

/-- `process_multiFrames(dgn, src, data)` (lines 1106–1202).  `now` stands
for `time.monotonic()` at this call.  The returned `Bool` is the Python
return value; the `Option Bytes` component reports a completed (trimmed)
payload, which the code classifies in place.  The firmware-version sink
writes on the XANTREX branch (lines 1187–1190) touch only the external
sinks, outside this state model. -/
def process_multiFrames (st : SvcState) (dgn src : ℕ) (data : Bytes) (now : ℚ) :
    SvcState × Bool × Option Bytes :=
  if (dgn = 0x0ECFF ∨ dgn = 0x0EBFF) ∧ src ∈ st.SA_toSkip then (st, true, none)
  else if dgn = 0x0ECFF then
    if data.length < 8 ∨ data.getD 0 0 ≠ 0x20 then (st, true, none)
    else
      let entry : MFEntry :=
        { len := data.getD 1 0 + 256 * data.getD 2 0
          need := (data.getD 3 0 : ℤ)
          seq := 1
          pgn := data.getD 5 0 + 256 * data.getD 6 0 + 65536 * data.getD 7 0
          buf := []
          deadline := now + 2
          consumed := 0 }
      ({ st with multiframe_assemblies := ainsert st.multiframe_assemblies src entry },
        true, none)
  else if dgn = 0x0EBFF then
    match alookup st.multiframe_assemblies src with
    | none => (st, true, none)
    | some e =>
      if e.deadline < now then
        ({ st with multiframe_assemblies := aerase st.multiframe_assemblies src },
          true, none)
      else if data.length < 2 then
        ({ st with multiframe_assemblies := aerase st.multiframe_assemblies src },
          true, none)
      else if data.getD 0 0 ≠ e.seq then
        ({ st with multiframe_assemblies := aerase st.multiframe_assemblies src },
          true, none)
      else
        let e' : MFEntry :=
          { e with
              buf := e.buf ++ (data.drop 1).take 7
              seq := e.seq + 1
              need := e.need - 1
              deadline := now + 2
              consumed := e.consumed + 1 }
        if e'.need = 0 then
          let payload := e'.buf.take e'.len
          let st' := { st with multiframe_assemblies := aerase st.multiframe_assemblies src }
          if containsXantrex payload then
            (if alookup st'.xantrex_sources src = none then
                { st' with xantrex_sources := ainsert st'.xantrex_sources src 129 }
              else st', true, some payload)
          else
            ({ st' with SA_toSkip := st'.SA_toSkip ++ [src] }, true, some payload)
        else
          ({ st with multiframe_assemblies := ainsert st.multiframe_assemblies src e' },
            true, none)
  else (st, false, none)

/-! ## §4.6 Frame processor (source lines 1228–1464) -/

/-- The DGN keys of the dispatch table `_combined_dgns`: the union of the
keys of `INVERTER_DGN_MAP`, `CHARGER_DGN_MAP` and `COMMON_DGN_MAP`
(flattened once at startup, lines 784–813). -/
def COMBINED_DGN_KEYS : List ℕ :=
  [0x1FFD4, 0x1EE00, 0x1FEEF, 0x1FFDE, 0x1FFDC, 0x1FFD7, 0x1FEA2, 0x1FFCD,
   0x1FFCC, 0x1FFCB, 0x1FFD5, 0x1FFD6, 0x1FF8F, 0x1FFDD, 0x1FEE8, 0x1FEBE,
   0x1FFF1, 0x1FFB0, 0x0EEFF, 0x1FE80, 0x1FE82, 0x0FECA, 0x1FECA, 0x1FFB7,
   0x1FEB3, 0x1FFFC, 0x1FFBE,
   0x1FDFF, 0x1FFC7, 0x1FEA3, 0x1FFC8, 0x1FFC6, 0x1FFC5, 0x1FFC2, 0x1FFC1,
   0x1FFC0, 0x1FF98, 0x1FEBF, 0x1FFC9, 0x1CA42, 0x0CA42,
   0x0EBFF, 0x1FEEB, 0x1FFDF, 0x1FFFD, 0x1FFCA,
   0x1FDA0, 0x1FEDD, 0x1FEBD, 0x0E842]

/-- `MAX_UNMAPPED_DGNS = 100` (line 84). -/
def MAX_UNMAPPED_DGNS : ℕ := 100

/-- The unknown-DGN branch of `handle_can_frame` (lines 1332–1354): bump the
occurrence counter; on a DGN not yet in `unmapped_seen`, log it as first
seen, add it, and if the set then exceeds `MAX_UNMAPPED_DGNS` remove one
element with `set.pop()`.  CPython's `set.pop()` removes an unspecified
element; it is modelled as removing the head of the insertion-ordered list,
and no theorem below depends on which element is removed. -/
def trackUnmapped (st : SvcState) (dgn : ℕ) : SvcState :=
  let counts := ainsert st.unmapped_counts dgn
      ((alookup st.unmapped_counts dgn).getD 0 + 1)
  if dgn ∈ st.unmapped_seen then
    { st with
        unmapped_counts := counts
        unmapped_events := st.unmapped_events ++ [dgn] }
  else
    let seen := st.unmapped_seen ++ [dgn]
    { st with
        unmapped_counts := counts
        unmapped_events := st.unmapped_events ++ [dgn]
        first_seen_log := st.first_seen_log ++ [dgn]
        unmapped_seen := if MAX_UNMAPPED_DGNS < seen.length then seen.tail else seen }

/-- The four unmapped-tracker fields of the service state, bundled for
stating how each step acts on the tracker (lines 752–753 plus the ghost
logs). -/
def trackerOf (s : SvcState) : List (ℕ × ℕ) × List ℕ × List ℕ × List ℕ :=
  (s.unmapped_counts, s.unmapped_seen, s.first_seen_log, s.unmapped_events)

/-- The tail of `handle_can_frame` after filtering and reassembly
(lines 1313–1354): the FFCA implausible-voltage pre-filter, then the
dispatch-table lookup.  A known DGN fans out to the external sinks only
(modelled separately as `dispatchItems`) and leaves the service state
unchanged; an unknown DGN is tracked. -/
def dispatchPart (st : SvcState) (dgn : ℕ) (data : Bytes) : SvcState :=
  if dgn = 0x1FFCA ∧
      (match safe_u16 data 1 (1/20) "little" with
        | none => true
        | some v => decide (v ≤ 90)) = true then st
  else if dgn ∈ COMBINED_DGN_KEYS then st
  else trackUnmapped st dgn

/-- One inbound CAN frame as consumed by `handle_can_frame` (lines 1228–1260):
the 29-bit identifier, the sliced payload (`data`), and the monotonic time of
arrival. -/
structure CanFrame where
  can_id : ℕ
  data : Bytes
  now : ℚ
deriving DecidableEq, Repr

/-- `handle_can_frame` effects on the service state (lines 1228–1464):
identifier decomposition, identity-claim discovery, the one-shot global
claim request, the source filter, the reassembler hand-off, the FFCA
pre-filter and the dispatch lookup.  The per-DGN fan-out and the derived
pass write only to the external sinks and local counters.  The returned
`Bool` is the Python return value, `True` on every path. -/
def handle_can_frame (st : SvcState) (f : CanFrame) : SvcState × Bool :=
  if f.data.length = 0 then (st, true)
  else
    let src := decompose_src f.can_id
    let dgn := decompose_dgn f.can_id
    if dgn = 0x1EE00 ∨ dgn = 0x00EE00 then
      if 8 ≤ f.data.length then
        let mfg := ((f.data.getD 2 0 >>> 5) ||| (f.data.getD 3 0 <<< 3)) &&& 0x7FF
        if mfg = 119 then
          let func := f.data.getD 5 0
          if alookup st.xantrex_sources src = none then
            ({ st with xantrex_sources := ainsert st.xantrex_sources src func }, true)
          else (st, true)
        else (st, true)
      else (st, true)
    else
      let st1 := if st.xantrex_sources = [] then
          { st with requests_sent := st.requests_sent + 1 }
        else st
      if st.xantrex_sources ≠ [] ∧ alookup st.xantrex_sources src = none then (st1, true)
      else if dgn = 0x0ECFF ∨ dgn = 0x0EBFF then
        let r := process_multiFrames st1 dgn src f.data f.now
        if r.2.1 then (r.1, true) else (dispatchPart r.1 dgn f.data, true)
      else (dispatchPart st1 dgn f.data, true)

/-- Run the frame-processing path over a sequence of inbound frames. -/
def runService (st : SvcState) (fs : List CanFrame) : SvcState :=
  fs.foldl (fun s f => (handle_can_frame s f).1) st

/-! ## §4.7 Derived-value engine (source lines 1034–1102)

A service's `exported_paths` is modelled per the sink contract of §6:
registered path ↦ last-sunk value, `none` standing for a never-written or
placeholder value (`None`/`[]`).  A path absent from the list is
unregistered: reading it through `__getitem__` raises `KeyError` and
writing it raises, both caught by the enclosing `try` blocks. -/

abbrev Sink := List (String × Option ℚ)

/-- `compute_power(dst_path, v_path, c_path)` (lines 1040–1058): fetch the
two source items via `exported_paths.get`; skip when an item is missing or
its value is a `None`/`[]` placeholder; otherwise sink
`round(v * i, 1)` at `dst_path`.  A write to an unregistered `dst_path`
raises and is swallowed by the `except` clause, leaving the sink
unchanged. -/
def compute_power (sink : Sink) (dst_path v_path c_path : String) : Sink :=
  match alookup sink v_path, alookup sink c_path with
  | some (some v), some (some i) =>
    if alookup sink dst_path = none then sink
    else ainsert sink dst_path (some (pyRound (v * i) 1))
  | _, _ => sink

/-- Sequential sink writes with CPython exception behaviour: a write to an
unregistered path raises, keeping the writes already performed and skipping
the rest (the exception is caught by the caller's `except`). -/
def sinkWriteMany (sink : Sink) : List (String × ℚ) → Sink
  | [] => sink
  | (p, v) :: t =>
    if alookup sink p = none then sink
    else sinkWriteMany (ainsert sink p (some v)) t

/-- `compute_totals(base_path, aliases)` (lines 1062–1089): read the L1
voltage and current through `__getitem__` (raising `KeyError` on an
unregistered path, caught), skip on `None` or zero, else write the rounded
totals to the canonical paths and mirror them onto the alias prefixes. -/
def compute_totals (sink : Sink) (base_path : String) (aliases : List String) : Sink :=
  match alookup sink (base_path ++ "/L1/V"), alookup sink (base_path ++ "/L1/I") with
  | some (some v), some (some i) =>
    if v = 0 ∨ i = 0 then sink
    else
      let p_total := pyRound (v * i) 1
      let i_total := pyRound i 1
      sinkWriteMany sink
        ([(base_path ++ "/P", p_total), (base_path ++ "/I", i_total)] ++
          aliases.flatMap (fun a => [(a ++ "/P", p_total), (a ++ "/I", i_total)]))
  | _, _ => sink

/-- `update_derived_values` (lines 1034–1102): the three V×I power points,
then the two totals passes with their aliases. -/
def update_derived_values (sink : Sink) : Sink :=
  let s1 := compute_power sink "/Dc/0/Power" "/Dc/0/Voltage" "/Dc/0/Current"
  let s2 := compute_power s1 "/Ac/In/L1/P" "/Ac/In/L1/V" "/Ac/In/L1/I"
  let s3 := compute_power s2 "/Ac/ActiveIn/L1/P" "/Ac/ActiveIn/L1/V" "/Ac/ActiveIn/L1/I"
  let s4 := compute_totals s3 "/Ac/In" ["/Ac/Grid"]
  compute_totals s4 "/Ac/Out" ["/Ac/Out/Total"]

/-! ## §4.6 Per-DGN dispatch fan-out (source lines 1356–1441)

Each `_combined_dgns` entry is a 6-tuple
`(path, decoder, unit, description, dbus_paths, service)`; `dbus_paths` is
the chosen service's `exported_paths`, so it is derived from the sink state
here instead of stored per item.  A decoder that raises is modelled as a
decoder returning `Except.error`; a failing D-Bus send is modelled by the
`writeOk` oracle describing the external sink's behaviour. -/

/-- Which of the two services an entry fans out to. -/
inductive SinkId where
  | inverter
  | charger
deriving DecidableEq, Repr

/-- One flattened dispatch-table entry (lines 787–813). -/
structure DispatchItem where
  path : String
  decoder : Bytes → Except String (Option ℚ)
  unit : String
  description : String
  sink : SinkId

/-- The two services' sinks plus the shared error counter. -/
structure DispatchState where
  inverterSink : Sink
  chargerSink : Sink
  error_count : ℕ
deriving DecidableEq, Repr

def getSink (ds : DispatchState) : SinkId → Sink
  | .inverter => ds.inverterSink
  | .charger => ds.chargerSink

def setSink (ds : DispatchState) : SinkId → Sink → DispatchState
  | .inverter, s => { ds with inverterSink := s }
  | .charger, s => { ds with chargerSink := s }

/-- How one dispatch entry ended (log lines 1377, 1382, 1389, 1403/1413,
1420, 1429). -/
inductive ItemOutcome where
  | decodeError
  | skippedNone
  | missingPath
  | quirkSkipped
  | sent
  | sendError
deriving DecidableEq, Repr

/-- The frequency paths special-cased for DGN `0x1FFD7` (line 1408). -/
def isFreqPath (p : String) : Bool :=
  p = "/Ac/Out/L1/F" || p = "/Ac/Out/F"

/-- The body of the per-entry loop of `handle_can_frame` (lines 1361–1436):
decode (a raising decoder is caught and counted), skip `None`, skip a path
missing from the service's registration, apply the FFD4/FFD7
source-address quirk predicates, then push to the sink (a raising send is
caught and skipped). -/
def processItem (dgn src primary : ℕ) (writeOk : String → Bool) (data : Bytes)
    (ds : DispatchState) (item : DispatchItem) : DispatchState × ItemOutcome :=
  match item.decoder data with
  | .error _ => ({ ds with error_count := ds.error_count + 1 }, .decodeError)
  | .ok none => (ds, .skippedNone)
  | .ok (some value) =>
    if alookup (getSink ds item.sink) item.path = none then (ds, .missingPath)
    else if dgn = 0x1FFD4 ∧ ¬(src = 0xD0 ∧ item.sink = .inverter) then
      (ds, .quirkSkipped)
    else if dgn = 0x1FFD7 ∧
        ¬((src = 0xD0 ∧ isFreqPath item.path) ∨
          (src = primary ∧ ¬(isFreqPath item.path = true))) then
      (ds, .quirkSkipped)
    else if writeOk item.path then
      (setSink ds item.sink (ainsert (getSink ds item.sink) item.path (some value)),
        .sent)
    else (ds, .sendError)

/-- The `for item in dgn_items` loop (lines 1361–1436): every entry is
processed in order; no per-entry failure short-circuits the iteration. -/
def dispatchItems (dgn src primary : ℕ) (writeOk : String → Bool) (data : Bytes) :
    DispatchState → List DispatchItem → DispatchState × List ItemOutcome
  | ds, [] => (ds, [])
  | ds, item :: rest =>
    let r := processItem dgn src primary writeOk data ds item
    let rr := dispatchItems dgn src primary writeOk data r.1 rest
    (rr.1, r.2 :: rr.2)

/-! ## Theorems -/

section AssocLemmas

variable {α β : Type} [DecidableEq α]

theorem alookup_ainsert (l : List (α × β)) (a k : α) (b : β) :
    alookup (ainsert l a b) k = if a = k then some b else alookup l k := by
  induction l with
  | nil => by_cases h : a = k <;> simp [ainsert, alookup, h]
  | cons hd t ih =>
    obtain ⟨k', v'⟩ := hd
    by_cases h1 : k' = a
    · subst h1
      by_cases h2 : k' = k <;> simp [ainsert, alookup, h2]
    · by_cases h2 : k' = k
      · subst h2
        have hak : ¬ a = k' := fun h => h1 h.symm
        simp [ainsert, alookup, h1, hak]
      · simp [ainsert, alookup, h1, h2, ih]

theorem alookup_aerase (l : List (α × β)) (a k : α) :
    alookup (aerase l a) k = if a = k then none else alookup l k := by
  induction l with
  | nil => simp [aerase, alookup]
  | cons hd t ih =>
    obtain ⟨k', v'⟩ := hd
    by_cases h1 : k' = a
    · subst h1
      by_cases h2 : k' = k
      · subst h2; simp [aerase, alookup, ih]
      · simp [aerase, alookup, h2, ih]
    · by_cases h2 : k' = k
      · subst h2
        have hak : ¬ a = k' := fun h => h1 h.symm
        simp [aerase, alookup, h1, hak]
      · simp [aerase, alookup, h1, h2, ih]

theorem alookup_of_aerase {l : List (α × β)} {a k : α} {e : β}
    (h : alookup (aerase l a) k = some e) : alookup l k = some e := by
  rw [alookup_aerase] at h
  by_cases hak : a = k
  · simp [hak] at h
  · simpa [hak] using h

end AssocLemmas

/-- The DGN of a frame as decomposed by `handle_can_frame`. -/
theorem dispatchPart_multiframe (st : SvcState) (dgn : ℕ) (data : Bytes) :
    (dispatchPart st dgn data).multiframe_assemblies = st.multiframe_assemblies ∧
    (dispatchPart st dgn data).xantrex_sources = st.xantrex_sources ∧
    (dispatchPart st dgn data).SA_toSkip = st.SA_toSkip ∧
    (dispatchPart st dgn data).requests_sent = st.requests_sent := by
  unfold dispatchPart trackUnmapped
  split
  · exact ⟨rfl, rfl, rfl, rfl⟩
  · split
    · exact ⟨rfl, rfl, rfl, rfl⟩
    · split <;> exact ⟨rfl, rfl, rfl, rfl⟩

/-- Per-entry invariant preservation for one `process_multiFrames` call:
an announce creates an entry satisfying `P`, an accepted data segment
preserves `P` (under the data constraint `D`), and every other branch
keeps or erases entries. -/
theorem process_multiFrames_entry_inv (P : MFEntry → Prop) (D : Bytes → Prop)
    (hann : ∀ (data : Bytes) (now : ℚ),
      P { len := data.getD 1 0 + 256 * data.getD 2 0
          need := (data.getD 3 0 : ℤ)
          seq := 1
          pgn := data.getD 5 0 + 256 * data.getD 6 0 + 65536 * data.getD 7 0
          buf := []
          deadline := now + 2
          consumed := 0 })
    (hacc : ∀ (e : MFEntry) (data : Bytes) (now : ℚ), P e → D data →
      2 ≤ data.length →
      P { e with
            buf := e.buf ++ (data.drop 1).take 7
            seq := e.seq + 1
            need := e.need - 1
            deadline := now + 2
            consumed := e.consumed + 1 })
    (st : SvcState) (dgn src : ℕ) (data : Bytes) (now : ℚ)
    (hD : dgn = 0x0EBFF → D data)
    (hst : ∀ k e, alookup st.multiframe_assemblies k = some e → P e) :
    ∀ k e,
      alookup (process_multiFrames st dgn src data now).1.multiframe_assemblies k
        = some e → P e := by
  intro k e he
  unfold process_multiFrames at he
  split at he
  · exact hst k e he
  · split at he
    · split at he
      · exact hst k e he
      · dsimp only at he
        rw [alookup_ainsert] at he
        by_cases hk : src = k
        · rw [if_pos hk] at he
          rw [Option.some_inj] at he
          subst he
          exact hann data now
        · rw [if_neg hk] at he
          exact hst k e he
    · split at he
      · split at he
        · exact hst k e he
        · rename_i e0 heq
          split at he
          · exact hst k e (alookup_of_aerase he)
          · split at he
            · exact hst k e (alookup_of_aerase he)
            · split at he
              · exact hst k e (alookup_of_aerase he)
              · dsimp only at he
                split at he
                · split at he
                  · split at he <;> exact hst k e (alookup_of_aerase he)
                  · exact hst k e (alookup_of_aerase he)
                · rw [alookup_ainsert] at he
                  by_cases hk : src = k
                  · rw [if_pos hk] at he
                    rw [Option.some_inj] at he
                    subst he
                    exact hacc e0 data now (hst src e0 heq) (hD (by assumption))
                      (by omega)
                  · rw [if_neg hk] at he
                    exact hst k e he
      · exact hst k e he

/-- One `handle_can_frame` step preserves any per-entry reassembly
invariant in the sense of `process_multiFrames_entry_inv`. -/
theorem handle_can_frame_entry_inv (P : MFEntry → Prop) (D : Bytes → Prop)
    (hann : ∀ (data : Bytes) (now : ℚ),
      P { len := data.getD 1 0 + 256 * data.getD 2 0
          need := (data.getD 3 0 : ℤ)
          seq := 1
          pgn := data.getD 5 0 + 256 * data.getD 6 0 + 65536 * data.getD 7 0
          buf := []
          deadline := now + 2
          consumed := 0 })
    (hacc : ∀ (e : MFEntry) (data : Bytes) (now : ℚ), P e → D data →
      2 ≤ data.length →
      P { e with
            buf := e.buf ++ (data.drop 1).take 7
            seq := e.seq + 1
            need := e.need - 1
            deadline := now + 2
            consumed := e.consumed + 1 })
    (st : SvcState) (f : CanFrame)
    (hD : decompose_dgn f.can_id = 0x0EBFF → D f.data)
    (hst : ∀ k e, alookup st.multiframe_assemblies k = some e → P e) :
    ∀ k e, alookup (handle_can_frame st f).1.multiframe_assemblies k = some e →
      P e := by
  intro k e he
  unfold handle_can_frame at he
  dsimp only at he
  split at he
  · exact hst k e he
  · split at he
    · split at he
      · split at he
        · split at he
          · exact hst k e he
          · exact hst k e he
        · exact hst k e he
      · exact hst k e he
    · by_cases hemp : st.xantrex_sources = []
      · simp only [if_pos hemp] at he
        split at he
        · exact hst k e he
        · split at he
          · split at he
            · exact process_multiFrames_entry_inv P D hann hacc
                { st with requests_sent := st.requests_sent + 1 } _ _ _ _ hD hst k e he
            · dsimp only at he
              rw [(dispatchPart_multiframe _ _ _).1] at he
              exact process_multiFrames_entry_inv P D hann hacc
                { st with requests_sent := st.requests_sent + 1 } _ _ _ _ hD hst k e he
          · dsimp only at he
            rw [(dispatchPart_multiframe _ _ _).1] at he
            exact hst k e he
      · simp only [if_neg hemp] at he
        split at he
        · exact hst k e he
        · split at he
          · split at he
            · exact process_multiFrames_entry_inv P D hann hacc _ _ _ _ _ hD hst k e he
            · dsimp only at he
              rw [(dispatchPart_multiframe _ _ _).1] at he
              exact process_multiFrames_entry_inv P D hann hacc _ _ _ _ _ hD hst k e he
          · dsimp only at he
            rw [(dispatchPart_multiframe _ _ _).1] at he
            exact hst k e he

/-- C1: each scalar decoder returns "not available" (`none`) whenever the
raw bits at the offset equal the reserved sentinel for its width and
signedness (`0xFF`/`0x7F` for 8-bit, `0xFFFF`/`0x7FFF` for 16-bit,
`0xFFFFFFFF`/`0x7FFFFFFF` for 32-bit), for every byte span, offset and
scale. -/
theorem c1_sentinel_not_available :
    (∀ (d : Bytes) (o : ℕ) (s : ℚ), d.getD o 0 = 0xFF → safe_u8 d o s = none) ∧
    (∀ (d : Bytes) (o : ℕ) (s : ℚ), d.getD o 0 = 0x7F → safe_s8 d o s = none) ∧
    (∀ (d : Bytes) (o : ℕ) (s : ℚ) (bo : String),
      (if bo = "little" then u16le d o else u16be d o) = 0xFFFF →
        safe_u16 d o s bo = none) ∧
    (∀ (d : Bytes) (o : ℕ) (s : ℚ) (bo : String),
      s16raw bo d o = 0x7FFF → safe_s16 d o s bo = none) ∧
    (∀ (d : Bytes) (o : ℕ) (s : ℚ), u32le d o = 0xFFFFFFFF → safe_u32 d o s = none) ∧
    (∀ (d : Bytes) (o : ℕ) (s : ℚ), s32raw d o = 0x7FFFFFFF → safe_s32 d o s = none) := by
  refine ⟨?_, ?_, ?_, ?_, ?_, ?_⟩ <;> intros d o s
  · intro h
    have h' : d[o]?.getD 0 = 255 := by simpa using h
    unfold safe_u8; split
    · rfl
    · simp [h']
  · intro h
    have h' : d[o]?.getD 0 = 127 := by simpa using h
    unfold safe_s8; split
    · rfl
    · simp [h']
  · intro bo h; unfold safe_u16; split
    · rfl
    · simp [h]
  · intro bo h; unfold safe_s16; split
    · rfl
    · simp [h]
  · intro h; unfold safe_u32; split
    · rfl
    · simp [h]
  · intro h; unfold safe_s32; split
    · rfl
    · simp [h]

/-- Witness for C1 at concrete sentinel-valued inputs (scale 2 ≠ 1). -/
theorem c1_sentinel_not_available_witness :
    safe_u8 [0xFF] 0 2 = none ∧
    safe_s8 [0x7F] 0 2 = none ∧
    safe_u16 [0xFF, 0xFF] 0 2 "little" = none ∧
    safe_s16 [0xFF, 0x7F] 0 2 "little" = none ∧
    safe_u32 [0xFF, 0xFF, 0xFF, 0xFF] 0 2 = none ∧
    safe_s32 [0xFF, 0xFF, 0xFF, 0x7F] 0 2 = none :=
  ⟨c1_sentinel_not_available.1 [0xFF] 0 2 (by decide),
   c1_sentinel_not_available.2.1 [0x7F] 0 2 (by decide),
   c1_sentinel_not_available.2.2.1 [0xFF, 0xFF] 0 2 "little" (by decide),
   c1_sentinel_not_available.2.2.2.1 [0xFF, 0x7F] 0 2 "little" (by decide),
   c1_sentinel_not_available.2.2.2.2.1 [0xFF, 0xFF, 0xFF, 0xFF] 0 2 (by decide),
   c1_sentinel_not_available.2.2.2.2.2 [0xFF, 0xFF, 0xFF, 0x7F] 0 2 (by decide)⟩

/-- C2: each scalar decoder is total on short input — a span shorter than
offset plus the field width yields "not available" (`none`); the embedding
is a total function, so no exception is possible. -/
theorem c2_short_span_not_available :
    (∀ (d : Bytes) (o : ℕ) (s : ℚ), d.length < o + 1 → safe_u8 d o s = none) ∧
    (∀ (d : Bytes) (o : ℕ) (s : ℚ), d.length < o + 1 → safe_s8 d o s = none) ∧
    (∀ (d : Bytes) (o : ℕ) (s : ℚ) (bo : String),
      d.length < o + 2 → safe_u16 d o s bo = none) ∧
    (∀ (d : Bytes) (o : ℕ) (s : ℚ) (bo : String),
      d.length < o + 2 → safe_s16 d o s bo = none) ∧
    (∀ (d : Bytes) (o : ℕ) (s : ℚ), d.length < o + 4 → safe_u32 d o s = none) ∧
    (∀ (d : Bytes) (o : ℕ) (s : ℚ), d.length < o + 4 → safe_s32 d o s = none) := by
  refine ⟨?_, ?_, ?_, ?_, ?_, ?_⟩ <;> intros d o s
  · intro h; simp [safe_u8, show d.length ≤ o by omega]
  · intro h; simp [safe_s8, show d.length ≤ o by omega]
  · intro bo h; simp [safe_u16, h]
  · intro bo h; simp [safe_s16, h]
  · intro h; simp [safe_u32, h]
  · intro h; simp [safe_s32, h]

/-- Witness for C2 at concrete short spans. -/
theorem c2_short_span_not_available_witness :
    safe_u8 [] 0 1 = none ∧
    safe_s8 [] 0 1 = none ∧
    safe_u16 [0xAA] 0 1 "little" = none ∧
    safe_s16 [0xAA] 0 1 "little" = none ∧
    safe_u32 [0xAA, 0xBB, 0xCC] 0 1 = none ∧
    safe_s32 [0xAA, 0xBB, 0xCC] 0 1 = none :=
  ⟨c2_short_span_not_available.1 [] 0 1 (by decide),
   c2_short_span_not_available.2.1 [] 0 1 (by decide),
   c2_short_span_not_available.2.2.1 [0xAA] 0 1 "little" (by decide),
   c2_short_span_not_available.2.2.2.1 [0xAA] 0 1 "little" (by decide),
   c2_short_span_not_available.2.2.2.2.1 [0xAA, 0xBB, 0xCC] 0 1 (by decide),
   c2_short_span_not_available.2.2.2.2.2 [0xAA, 0xBB, 0xCC] 0 1 (by decide)⟩

/-- C3: CAN-ID decomposition round-trips with synthesis: for every valid
triple (priority < 8, 18-bit PGN, 8-bit source address), the synthesized
identifier is a valid 29-bit value, decomposition recovers the triple
(PGN from bits 8–25, source address from bits 0–7), and DGN equals PGN. -/
theorem c3_can_id_roundtrip (priority pgn sourceAddress : ℕ)
    (hp : priority < 8) (hg : pgn < 2 ^ 18) (hs : sourceAddress < 256) :
    mk_can_id priority pgn sourceAddress < 2 ^ 29 ∧
    decompose_priority (mk_can_id priority pgn sourceAddress) = priority ∧
    decompose_pgn (mk_can_id priority pgn sourceAddress) = pgn ∧
    decompose_src (mk_can_id priority pgn sourceAddress) = sourceAddress ∧
    decompose_dgn (mk_can_id priority pgn sourceAddress) = pgn := by
  have hmask18 : ∀ n : ℕ, n &&& 0x3FFFF = n % 2 ^ 18 := fun n => by
    simpa using Nat.and_pow_two_sub_one_eq_mod n 18
  have hmask8 : ∀ n : ℕ, n &&& 0xFF = n % 2 ^ 8 := fun n => by
    simpa using Nat.and_pow_two_sub_one_eq_mod n 8
  have hmask3 : ∀ n : ℕ, n &&& 0x7 = n % 2 ^ 3 := fun n => by
    simpa using Nat.and_pow_two_sub_one_eq_mod n 3
  unfold mk_can_id decompose_dgn decompose_priority decompose_pgn decompose_src
  simp only [hmask18, hmask8, hmask3, Nat.shiftRight_eq_div_pow]
  omega

/-- Witness for C3 at the triple (6, 0xEAFF, 0x42) — the global request
identifier family of `send_pgn_request`. -/
theorem c3_can_id_roundtrip_witness :
    mk_can_id 6 0xEAFF 0x42 < 2 ^ 29 ∧
    decompose_priority (mk_can_id 6 0xEAFF 0x42) = 6 ∧
    decompose_pgn (mk_can_id 6 0xEAFF 0x42) = 0xEAFF ∧
    decompose_src (mk_can_id 6 0xEAFF 0x42) = 0x42 ∧
    decompose_dgn (mk_can_id 6 0xEAFF 0x42) = 0xEAFF :=
  c3_can_id_roundtrip 6 0xEAFF 0x42 (by decide) (by decide) (by decide)

/-- A whole run preserves any per-entry reassembly invariant. -/
theorem runService_entry_inv (P : MFEntry → Prop) (D : Bytes → Prop)
    (hann : ∀ (data : Bytes) (now : ℚ),
      P { len := data.getD 1 0 + 256 * data.getD 2 0
          need := (data.getD 3 0 : ℤ)
          seq := 1
          pgn := data.getD 5 0 + 256 * data.getD 6 0 + 65536 * data.getD 7 0
          buf := []
          deadline := now + 2
          consumed := 0 })
    (hacc : ∀ (e : MFEntry) (data : Bytes) (now : ℚ), P e → D data →
      2 ≤ data.length →
      P { e with
            buf := e.buf ++ (data.drop 1).take 7
            seq := e.seq + 1
            need := e.need - 1
            deadline := now + 2
            consumed := e.consumed + 1 })
    (st : SvcState) (fs : List CanFrame)
    (hD : ∀ f ∈ fs, decompose_dgn f.can_id = 0x0EBFF → D f.data)
    (hst : ∀ k e, alookup st.multiframe_assemblies k = some e → P e) :
    ∀ k e, alookup (runService st fs).multiframe_assemblies k = some e → P e := by
  induction fs generalizing st with
  | nil => exact hst
  | cons f t ih =>
    exact ih _ (fun g hg => hD g (List.mem_cons_of_mem f hg))
      (handle_can_frame_entry_inv P D hann hacc st f (hD f (List.mem_cons_self f t)) hst)

/-- C4 does not hold as stated: the buffer does not grow by 7 bytes when an
accepted data segment carries fewer than 8 payload bytes.  Concretely, after
an announce (total 14, 2 segments) from source 0x42 followed by an accepted
2-byte data segment `[1, 0xAA]`, the reachable entry has a 1-byte buffer
after 1 consumed segment, so `buf.length = 7 × consumed` fails. -/
theorem c4_counterexample :
    ¬ (∀ (fs : List CanFrame) (src : ℕ) (e : MFEntry),
        alookup (runService initState fs).multiframe_assemblies src = some e →
        e.buf.length = 7 * e.consumed) := by
  intro hcl
  have h1 : decompose_dgn 0xECFF42 = 0xECFF := by decide
  have h2 : decompose_src 0xECFF42 = 0x42 := by decide
  have h3 : decompose_dgn 0xEBFF42 = 0xEBFF := by decide
  have h4 : decompose_src 0xEBFF42 = 0x42 := by decide
  have hlook : alookup (runService initState
      [⟨0xECFF42, [0x20, 14, 0, 2, 0xFF, 0, 0, 0], 0⟩,
       ⟨0xEBFF42, [1, 0xAA], 1⟩]).multiframe_assemblies 0x42 =
      some { len := 14, need := 1, seq := 2, pgn := 0, buf := [0xAA], deadline := 3,
             consumed := 1 } := by
    norm_num [runService, handle_can_frame, process_multiFrames, dispatchPart,
      trackUnmapped, h1, h2, h3, h4, initState, alookup, ainsert, aerase,
      containsXantrex, occursIn, asciiIgnore, upByte, xantrexMarker, List.foldl]
  have h := hcl _ 0x42 _ hlook
  simp at h

/-- C4 amended: in every reachable reassembly state, the expected sequence
number starts at 1 and increments by exactly 1 per accepted segment
(`seq = consumed + 1`), and the buffer length is between `consumed` and
`7 × consumed`, with equality `buf.length = 7 × consumed` holding when every
data segment of the run carries the full 8 payload bytes — but not, contrary
to the claim, when an accepted segment carries fewer. -/
theorem c4_reassembly_invariant_amended (fs : List CanFrame) :
    (∀ (src : ℕ) (e : MFEntry),
        alookup (runService initState fs).multiframe_assemblies src = some e →
        e.seq = e.consumed + 1 ∧ e.consumed ≤ e.buf.length ∧
          e.buf.length ≤ 7 * e.consumed) ∧
    ((∀ f ∈ fs, decompose_dgn f.can_id = 0x0EBFF → 8 ≤ f.data.length) →
      ∀ (src : ℕ) (e : MFEntry),
        alookup (runService initState fs).multiframe_assemblies src = some e →
        e.buf.length = 7 * e.consumed) := by
  constructor
  · exact runService_entry_inv
      (fun e => e.seq = e.consumed + 1 ∧ e.consumed ≤ e.buf.length ∧
        e.buf.length ≤ 7 * e.consumed)
      (fun _ => True)
      (by intro data now; simp)
      (by
        intro e data now hP _ hlen
        obtain ⟨h1, h2, h3⟩ := hP
        refine ⟨by simp [h1], ?_, ?_⟩ <;>
          simp only [List.length_append, List.length_take, List.length_drop] <;>
          omega)
      initState fs (fun _ _ _ => trivial)
      (by intro k e h; simp [initState, alookup] at h)
  · intro hfull
    exact runService_entry_inv
      (fun e => e.buf.length = 7 * e.consumed)
      (fun data => 8 ≤ data.length)
      (by intro data now; simp)
      (by
        intro e data now hP hD hlen
        simp only [List.length_append, List.length_take, List.length_drop]
        omega)
      initState fs hfull
      (by intro k e h; simp [initState, alookup] at h)

/-- Witness for C4 amended: announce (total 14, 2 segments) plus one full
8-byte data segment from source 0x42 reaches an entry with
`seq = 2 = consumed + 1` and `buf.length = 7 = 7 × consumed`. -/
theorem c4_reassembly_invariant_amended_witness :
    (MFEntry.seq
        { len := 14, need := 1, seq := 2, pgn := 0, buf := [1, 2, 3, 4, 5, 6, 7],
          deadline := 2, consumed := 1 } = 1 + 1 ∧
      (1 : ℕ) ≤ 7 ∧ (7 : ℕ) ≤ 7 * 1) ∧
    List.length [1, 2, 3, 4, 5, 6, 7] = 7 * 1 := by
  have h1 : decompose_dgn 0xECFF42 = 0xECFF := by decide
  have h2 : decompose_src 0xECFF42 = 0x42 := by decide
  have h3 : decompose_dgn 0xEBFF42 = 0xEBFF := by decide
  have h4 : decompose_src 0xEBFF42 = 0x42 := by decide
  have hlook : alookup (runService initState
      [⟨0xECFF42, [0x20, 14, 0, 2, 0xFF, 0, 0, 0], 0⟩,
       ⟨0xEBFF42, [1, 1, 2, 3, 4, 5, 6, 7], 0⟩]).multiframe_assemblies 0x42 =
      some { len := 14, need := 1, seq := 2, pgn := 0, buf := [1, 2, 3, 4, 5, 6, 7],
             deadline := 2, consumed := 1 } := by
    norm_num [runService, handle_can_frame, process_multiFrames, dispatchPart,
      trackUnmapped, h1, h2, h3, h4, initState, alookup, ainsert, aerase,
      containsXantrex, occursIn, asciiIgnore, upByte, xantrexMarker, List.foldl]
  constructor
  · exact (c4_reassembly_invariant_amended
      [⟨0xECFF42, [0x20, 14, 0, 2, 0xFF, 0, 0, 0], 0⟩,
       ⟨0xEBFF42, [1, 1, 2, 3, 4, 5, 6, 7], 0⟩]).1
      0x42
      { len := 14, need := 1, seq := 2, pgn := 0, buf := [1, 2, 3, 4, 5, 6, 7],
        deadline := 2, consumed := 1 }
      hlook
  · exact (c4_reassembly_invariant_amended
      [⟨0xECFF42, [0x20, 14, 0, 2, 0xFF, 0, 0, 0], 0⟩,
       ⟨0xEBFF42, [1, 1, 2, 3, 4, 5, 6, 7], 0⟩]).2
      (by
        intro g hg hdgn
        simp only [List.mem_cons, List.mem_singleton] at hg
        rcases hg with rfl | rfl | h
        · exact absurd hdgn (by rw [h1]; decide)
        · simp
        · cases h)
      0x42
      { len := 14, need := 1, seq := 2, pgn := 0, buf := [1, 2, 3, 4, 5, 6, 7],
        deadline := 2, consumed := 1 }
      hlook

/-- C5: after a broadcast announce declaring total length 14 and 2 segments
from a non-skipped source, followed by two in-order full data segments
within the deadline, the reassembler produces exactly one completed payload
— on the third call only — equal to the concatenation of the two segments'
7-byte data chunks trimmed to the announced 14 bytes, and the per-source
entry is removed. -/
theorem c5_reassembly_completion (st : SvcState) (src : ℕ) (a b : Bytes)
    (pb p0 p1 p2 : ℕ) (t0 t1 t2 : ℚ)
    (hskip : src ∉ st.SA_toSkip)
    (ha : a.length = 7) (hb : b.length = 7)
    (h1 : t1 ≤ t0 + 2) (h2 : t2 ≤ t1 + 2) :
    let r1 := process_multiFrames st 0x0ECFF src [0x20, 14, 0, 2, pb, p0, p1, p2] t0
    let r2 := process_multiFrames r1.1 0x0EBFF src (1 :: a) t1
    let r3 := process_multiFrames r2.1 0x0EBFF src (2 :: b) t2
    r1.2.2 = none ∧ r2.2.2 = none ∧ r3.2.2 = some (a ++ b) ∧
      (a ++ b).length = 14 ∧
      alookup r3.1.multiframe_assemblies src = none := by
  intro r1 r2 r3
  have hlen : (a ++ b).length = 14 := by simp [ha, hb]
  have htake_a : a.take 7 = a := List.take_of_length_le (le_of_eq ha)
  have htake_b : b.take 7 = b := List.take_of_length_le (le_of_eq hb)
  have htake_ab : (a ++ b).take 14 = a ++ b := List.take_of_length_le (le_of_eq hlen)
  have hstep1 : r1 =
      ({ st with
          multiframe_assemblies :=
            ainsert st.multiframe_assemblies src
              { len := 14, need := 2, seq := 1, pgn := p0 + 256 * p1 + 65536 * p2,
                buf := [], deadline := t0 + 2, consumed := 0 } },
        true, none) := by
    show process_multiFrames st 0x0ECFF src [0x20, 14, 0, 2, pb, p0, p1, p2] t0 = _
    simp [process_multiFrames, hskip]
  have hstep2 : r2 =
      ({ st with
          multiframe_assemblies :=
            ainsert (ainsert st.multiframe_assemblies src
                { len := 14, need := 2, seq := 1, pgn := p0 + 256 * p1 + 65536 * p2,
                  buf := [], deadline := t0 + 2, consumed := 0 }) src
              { len := 14, need := 1, seq := 2, pgn := p0 + 256 * p1 + 65536 * p2,
                buf := a, deadline := t1 + 2, consumed := 1 } },
        true, none) := by
    show process_multiFrames r1.1 0x0EBFF src (1 :: a) t1 = _
    rw [hstep1]
    norm_num [process_multiFrames, hskip, alookup_ainsert, not_lt.mpr h1, ha,
      htake_a]
  have hr3 : r3.2.2 = some (a ++ b) ∧
      alookup r3.1.multiframe_assemblies src = none := by
    have hdef : r3 = process_multiFrames r2.1 0x0EBFF src (2 :: b) t2 := rfl
    rw [hdef, hstep2]
    norm_num [process_multiFrames, hskip, alookup_ainsert, not_lt.mpr h2, hb,
      htake_b, htake_ab]
    split
    · split <;> simp [alookup_aerase]
    · simp [alookup_aerase]
  refine ⟨by rw [hstep1], by rw [hstep2], hr3.1, hlen, hr3.2⟩

/-- Witness for C5: source 0x42 from the initial state, chunks
`[1..7]` and `[8..14]`, announce at time 0 and segments at times 1 and 2. -/
theorem c5_reassembly_completion_witness :
    let r1 := process_multiFrames initState 0x0ECFF 0x42
      [0x20, 14, 0, 2, 0xFF, 0, 0, 0] 0
    let r2 := process_multiFrames r1.1 0x0EBFF 0x42 [1, 1, 2, 3, 4, 5, 6, 7] 1
    let r3 := process_multiFrames r2.1 0x0EBFF 0x42 [2, 8, 9, 10, 11, 12, 13, 14] 2
    r1.2.2 = none ∧ r2.2.2 = none ∧
      r3.2.2 = some ([1, 2, 3, 4, 5, 6, 7] ++ [8, 9, 10, 11, 12, 13, 14]) ∧
      (([1, 2, 3, 4, 5, 6, 7] : Bytes) ++ [8, 9, 10, 11, 12, 13, 14]).length = 14 ∧
      alookup r3.1.multiframe_assemblies 0x42 = none := by
  have h := c5_reassembly_completion initState 0x42
    [1, 2, 3, 4, 5, 6, 7] [8, 9, 10, 11, 12, 13, 14] 0xFF 0 0 0 0 1 2
    (by decide) (by decide) (by decide) (by norm_num) (by norm_num)
  exact h

theorem ainsert_ne_nil {α β : Type} [DecidableEq α] (l : List (α × β)) (a : α)
    (b : β) : ainsert l a b ≠ [] := by
  cases l with
  | nil => simp [ainsert]
  | cons hd t => obtain ⟨k, v⟩ := hd; unfold ainsert; split <;> simp

/-- Field effects of one `process_multiFrames` call: the ghost request
counter and the unmapped tracker are untouched; the registry either stays or
gains `src` (only when `src` was absent); the skip set either stays or gains
`src`. -/
theorem process_multiFrames_effects (st : SvcState) (dgn src : ℕ) (data : Bytes)
    (now : ℚ) :
    (process_multiFrames st dgn src data now).1.requests_sent = st.requests_sent ∧
    (process_multiFrames st dgn src data now).1.unmapped_counts = st.unmapped_counts ∧
    (process_multiFrames st dgn src data now).1.unmapped_seen = st.unmapped_seen ∧
    (process_multiFrames st dgn src data now).1.first_seen_log = st.first_seen_log ∧
    (process_multiFrames st dgn src data now).1.unmapped_events = st.unmapped_events ∧
    ((process_multiFrames st dgn src data now).1.xantrex_sources = st.xantrex_sources ∨
      (alookup st.xantrex_sources src = none ∧
        (process_multiFrames st dgn src data now).1.xantrex_sources =
          ainsert st.xantrex_sources src 129)) ∧
    ((process_multiFrames st dgn src data now).1.SA_toSkip = st.SA_toSkip ∨
      (process_multiFrames st dgn src data now).1.SA_toSkip = st.SA_toSkip ++ [src]) := by
  unfold process_multiFrames
  split
  · exact ⟨rfl, rfl, rfl, rfl, rfl, Or.inl rfl, Or.inl rfl⟩
  · split
    · split
      · exact ⟨rfl, rfl, rfl, rfl, rfl, Or.inl rfl, Or.inl rfl⟩
      · exact ⟨rfl, rfl, rfl, rfl, rfl, Or.inl rfl, Or.inl rfl⟩
    · split
      · split
        · exact ⟨rfl, rfl, rfl, rfl, rfl, Or.inl rfl, Or.inl rfl⟩
        · split
          · exact ⟨rfl, rfl, rfl, rfl, rfl, Or.inl rfl, Or.inl rfl⟩
          · split
            · exact ⟨rfl, rfl, rfl, rfl, rfl, Or.inl rfl, Or.inl rfl⟩
            · split
              · exact ⟨rfl, rfl, rfl, rfl, rfl, Or.inl rfl, Or.inl rfl⟩
              · dsimp only
                split
                · split
                  · split
                    · rename_i hnone
                      exact ⟨rfl, rfl, rfl, rfl, rfl, Or.inr ⟨hnone, rfl⟩, Or.inl rfl⟩
                    · exact ⟨rfl, rfl, rfl, rfl, rfl, Or.inl rfl, Or.inl rfl⟩
                  · exact ⟨rfl, rfl, rfl, rfl, rfl, Or.inl rfl, Or.inr rfl⟩
                · exact ⟨rfl, rfl, rfl, rfl, rfl, Or.inl rfl, Or.inl rfl⟩
      · exact ⟨rfl, rfl, rfl, rfl, rfl, Or.inl rfl, Or.inl rfl⟩

theorem alookup_ainsert_preserve {α β : Type} [DecidableEq α]
    {l : List (α × β)} {s : α} {b : β} (hnone : alookup l s = none)
    (a : α) (v : β) (h : alookup l a = some v) :
    alookup (ainsert l s b) a = some v := by
  rw [alookup_ainsert]
  by_cases hk : s = a
  · subst hk; rw [hnone] at h; cases h
  · rw [if_neg hk]; exact h

/-- Field effects of one `handle_can_frame` step: registry entries are never
removed or overwritten, the skip set never shrinks; when the registry is
non-empty no identity-claim request is sent and the registry stays
non-empty; and the skip-set ⊆ registry containment is preserved. -/
theorem handle_can_frame_effects (st : SvcState) (f : CanFrame) :
    (∀ a v, alookup st.xantrex_sources a = some v →
      alookup (handle_can_frame st f).1.xantrex_sources a = some v) ∧
    (∀ a, a ∈ st.SA_toSkip → a ∈ (handle_can_frame st f).1.SA_toSkip) ∧
    (st.xantrex_sources ≠ [] →
      (handle_can_frame st f).1.requests_sent = st.requests_sent) ∧
    (st.xantrex_sources ≠ [] → (handle_can_frame st f).1.xantrex_sources ≠ []) ∧
    (st.xantrex_sources ≠ [] →
      (∀ a, a ∈ st.SA_toSkip → alookup st.xantrex_sources a ≠ none) →
      ∀ a, a ∈ (handle_can_frame st f).1.SA_toSkip →
        alookup (handle_can_frame st f).1.xantrex_sources a ≠ none) := by
  have hpm : ∀ (s1 : SvcState),
      s1.xantrex_sources = st.xantrex_sources → s1.SA_toSkip = st.SA_toSkip →
      (st.xantrex_sources ≠ [] → s1.requests_sent = st.requests_sent) →
      (¬(st.xantrex_sources ≠ [] ∧
          alookup st.xantrex_sources (decompose_src f.can_id) = none)) →
      ∀ (s2 : SvcState),
        s2 = (process_multiFrames s1 (decompose_dgn f.can_id)
          (decompose_src f.can_id) f.data f.now).1 →
      (∀ a v, alookup st.xantrex_sources a = some v →
        alookup s2.xantrex_sources a = some v) ∧
      (∀ a, a ∈ st.SA_toSkip → a ∈ s2.SA_toSkip) ∧
      (st.xantrex_sources ≠ [] → s2.requests_sent = st.requests_sent) ∧
      (st.xantrex_sources ≠ [] → s2.xantrex_sources ≠ []) ∧
      (st.xantrex_sources ≠ [] →
        (∀ a, a ∈ st.SA_toSkip → alookup st.xantrex_sources a ≠ none) →
        ∀ a, a ∈ s2.SA_toSkip → alookup s2.xantrex_sources a ≠ none) := by
    intro s1 hsrc hskp hreq hfil s2 hs2
    obtain ⟨e1, _, _, _, _, e6, e7⟩ := process_multiFrames_effects s1
      (decompose_dgn f.can_id) (decompose_src f.can_id) f.data f.now
    rw [← hs2] at e1 e6 e7
    rw [hsrc] at e6
    rw [hskp] at e7
    have hkeep : ∀ a v, alookup st.xantrex_sources a = some v →
        alookup s2.xantrex_sources a = some v := by
      intro a v h
      rcases e6 with h6 | ⟨hnone, h6⟩ <;> rw [h6]
      · exact h
      · exact alookup_ainsert_preserve hnone a v h
    refine ⟨hkeep, ?_, ?_, ?_, ?_⟩
    · intro a h
      rcases e7 with h7 | h7 <;> rw [h7]
      · exact h
      · exact List.mem_append_left _ h
    · intro hne; rw [e1, hreq hne]
    · intro hne
      rcases e6 with h6 | ⟨_, h6⟩ <;> rw [h6]
      · exact hne
      · exact ainsert_ne_nil _ _ _
    · intro hne hsub a ha
      have hsrcne : alookup st.xantrex_sources (decompose_src f.can_id) ≠ none := by
        intro hcon
        exact hfil ⟨hne, hcon⟩
      have hget : ∀ b, alookup st.xantrex_sources b ≠ none →
          alookup s2.xantrex_sources b ≠ none := by
        intro b hb
        cases hl : alookup st.xantrex_sources b with
        | none => exact absurd hl hb
        | some v => rw [hkeep b v hl]; simp
      rcases e7 with h7 | h7 <;> rw [h7] at ha
      · exact hget a (hsub a ha)
      · rcases List.mem_append.mp ha with hmem | hmem
        · exact hget a (hsub a hmem)
        · rw [List.mem_singleton] at hmem
          subst hmem
          exact hget _ hsrcne
  unfold handle_can_frame
  dsimp only
  split
  · exact ⟨fun a v h => h, fun a h => h, fun _ => rfl, fun hne => hne,
      fun _ hsub => hsub⟩
  · split
    · split
      · split
        · split
          · rename_i hnone
            refine ⟨fun a v h => alookup_ainsert_preserve hnone a v h,
              fun a h => h, fun _ => rfl, fun _ => ainsert_ne_nil _ _ _, ?_⟩
            intro hne hsub a ha
            have hb := hsub a ha
            cases hl : alookup st.xantrex_sources a with
            | none => exact absurd hl hb
            | some v =>
              rw [alookup_ainsert_preserve hnone a v hl]
              simp
          · exact ⟨fun a v h => h, fun a h => h, fun _ => rfl, fun hne => hne,
              fun _ hsub => hsub⟩
        · exact ⟨fun a v h => h, fun a h => h, fun _ => rfl, fun hne => hne,
            fun _ hsub => hsub⟩
      · exact ⟨fun a v h => h, fun a h => h, fun _ => rfl, fun hne => hne,
          fun _ hsub => hsub⟩
    · by_cases hemp : st.xantrex_sources = []
      · simp only [if_pos hemp]
        split
        · exact ⟨fun a v h => h, fun a h => h, fun hne => absurd hemp hne,
            fun hne => absurd hemp hne, fun hne _ => absurd hemp hne⟩
        · rename_i hfil
          split
          · split
            · exact hpm { st with requests_sent := st.requests_sent + 1 }
                rfl rfl (fun hne => absurd hemp hne) hfil _ rfl
            · obtain ⟨g1, g2, g3, g4, g5⟩ :=
                hpm { st with requests_sent := st.requests_sent + 1 }
                  rfl rfl (fun hne => absurd hemp hne) hfil _ rfl
              obtain ⟨d1, d2, d3, d4⟩ := dispatchPart_multiframe
                (process_multiFrames { st with requests_sent := st.requests_sent + 1 }
                  (decompose_dgn f.can_id) (decompose_src f.can_id) f.data f.now).1
                (decompose_dgn f.can_id) f.data
              refine ⟨fun a v h => by rw [d2]; exact g1 a v h,
                fun a h => by rw [d3]; exact g2 a h,
                fun hne => by rw [d4]; exact g3 hne,
                fun hne => by rw [d2]; exact g4 hne,
                fun hne hsub a ha => by
                  rw [d2]; rw [d3] at ha; exact g5 hne hsub a ha⟩
          · obtain ⟨d1, d2, d3, d4⟩ := dispatchPart_multiframe
              { st with requests_sent := st.requests_sent + 1 }
              (decompose_dgn f.can_id) f.data
            exact ⟨fun a v h => by rw [d2]; exact h,
              fun a h => by rw [d3]; exact h,
              fun hne => absurd hemp hne,
              fun hne => by rw [d2]; exact hne,
              fun hne _ => absurd hemp hne⟩
      · simp only [if_neg hemp]
        split
        · exact ⟨fun a v h => h, fun a h => h, fun _ => rfl, fun hne => hne,
            fun _ hsub => hsub⟩
        · rename_i hfil
          split
          · split
            · exact hpm st rfl rfl (fun _ => rfl) hfil _ rfl
            · obtain ⟨g1, g2, g3, g4, g5⟩ := hpm st rfl rfl (fun _ => rfl) hfil _ rfl
              obtain ⟨d1, d2, d3, d4⟩ := dispatchPart_multiframe
                (process_multiFrames st
                  (decompose_dgn f.can_id) (decompose_src f.can_id) f.data f.now).1
                (decompose_dgn f.can_id) f.data
              refine ⟨fun a v h => by rw [d2]; exact g1 a v h,
                fun a h => by rw [d3]; exact g2 a h,
                fun hne => by rw [d4]; exact g3 hne,
                fun hne => by rw [d2]; exact g4 hne,
                fun hne hsub a ha => by
                  rw [d2]; rw [d3] at ha; exact g5 hne hsub a ha⟩
          · obtain ⟨d1, d2, d3, d4⟩ := dispatchPart_multiframe st
              (decompose_dgn f.can_id) f.data
            exact ⟨fun a v h => by rw [d2]; exact h,
              fun a h => by rw [d3]; exact h,
              fun hne => by rw [d4],
              fun hne => by rw [d2]; exact hne,
              fun hne hsub a ha => by rw [d2]; rw [d3] at ha; exact hsub a ha⟩

/-- Run-level invariant preservation. -/
theorem runService_inv (Q : SvcState → Prop)
    (hstep : ∀ s f, Q s → Q (handle_can_frame s f).1)
    (st : SvcState) (fs : List CanFrame) (h : Q st) : Q (runService st fs) := by
  induction fs generalizing st with
  | nil => exact h
  | cons f t ih => exact ih _ (hstep st f h)

/-- Appending one frame to a run is one more `handle_can_frame` step. -/
theorem runService_append_one (st : SvcState) (fs : List CanFrame) (f : CanFrame) :
    runService st (fs ++ [f]) = (handle_can_frame (runService st fs) f).1 := by
  unfold runService
  rw [List.foldl_append]
  rfl

/-- C6: the source registry is initialized non-empty with the two static
fallback addresses (`{0x42, 0xD0}`) and never shrinks, so the
empty-registry branch guarding the global identity-claim request never
fires: over every inbound frame sequence, zero identity-claim requests —
hence at most one — are sent from the frame-processing path. -/
theorem c6_global_request_at_most_once (fs : List CanFrame) :
    (runService initState fs).requests_sent = 0 ∧
    (runService initState fs).requests_sent ≤ 1 := by
  have h := runService_inv
    (fun s => s.xantrex_sources ≠ [] ∧ s.requests_sent = 0)
    (fun s f hq => by
      obtain ⟨_, _, h3, h4, _⟩ := handle_can_frame_effects s f
      exact ⟨h4 hq.1, by rw [h3 hq.1, hq.2]⟩)
    initState fs ⟨by simp [initState], rfl⟩
  exact ⟨h.2, by rw [h.2]; omega⟩

/-- C7 does not hold as stated: the registry and the skip set are not
disjoint.  A registered source (0x42, present from startup) that completes
a reassembled payload lacking the XANTREX marker is added to the skip set
while remaining in the registry. -/
theorem c7_counterexample :
    ¬ (∀ (fs : List CanFrame) (a : ℕ),
        a ∈ (runService initState fs).SA_toSkip →
        alookup (runService initState fs).xantrex_sources a = none) := by
  intro hcl
  have h1 : decompose_dgn 0xECFF42 = 0xECFF := by decide
  have h2 : decompose_src 0xECFF42 = 0x42 := by decide
  have h3 : decompose_dgn 0xEBFF42 = 0xEBFF := by decide
  have h4 : decompose_src 0xEBFF42 = 0x42 := by decide
  have hcx : containsXantrex [72, 69, 76, 76, 79] = false := by decide
  have hskip : 0x42 ∈ (runService initState
      [⟨0xECFF42, [0x20, 5, 0, 1, 0xFF, 0, 0, 0], 0⟩,
       ⟨0xEBFF42, [1, 72, 69, 76, 76, 79, 0, 0], 1⟩]).SA_toSkip := by
    norm_num [runService, handle_can_frame, process_multiFrames, dispatchPart,
      trackUnmapped, h1, h2, h3, h4, hcx, initState, alookup, ainsert, aerase,
      List.foldl, Option.some_ne_none, List.cons_ne_nil, reduceCtorEq]
  have hsrc : alookup (runService initState
      [⟨0xECFF42, [0x20, 5, 0, 1, 0xFF, 0, 0, 0], 0⟩,
       ⟨0xEBFF42, [1, 72, 69, 76, 76, 79, 0, 0], 1⟩]).xantrex_sources 0x42 =
      some 129 := by
    norm_num [runService, handle_can_frame, process_multiFrames, dispatchPart,
      trackUnmapped, h1, h2, h3, h4, hcx, initState, alookup, ainsert, aerase,
      List.foldl, Option.some_ne_none, List.cons_ne_nil, reduceCtorEq]
  have hnone := hcl _ 0x42 hskip
  rw [hnone] at hsrc
  cases hsrc

/-- C7 amended: the source registry and the skip set both grow
monotonically — no step removes or overwrites a registry entry or removes a
skip entry — but the two are not disjoint: in every reachable state the
skip set is contained in the registry's address set, because an address is
only added to the skip set while it is registered. -/
theorem c7_registry_skip_amended (fs : List CanFrame) (f : CanFrame) :
    (∀ a, a ∈ (runService initState fs).SA_toSkip →
      alookup (runService initState fs).xantrex_sources a ≠ none) ∧
    (∀ a v, alookup (runService initState fs).xantrex_sources a = some v →
      alookup (runService initState (fs ++ [f])).xantrex_sources a = some v) ∧
    (∀ a, a ∈ (runService initState fs).SA_toSkip →
      a ∈ (runService initState (fs ++ [f])).SA_toSkip) := by
  have hQ := runService_inv
    (fun s => s.xantrex_sources ≠ [] ∧
      ∀ a, a ∈ s.SA_toSkip → alookup s.xantrex_sources a ≠ none)
    (fun s g hq => by
      obtain ⟨_, _, _, h4, h5⟩ := handle_can_frame_effects s g
      exact ⟨h4 hq.1, h5 hq.1 hq.2⟩)
    initState fs ⟨by simp [initState], by simp [initState]⟩
  obtain ⟨g1, g2, _, _, _⟩ := handle_can_frame_effects (runService initState fs) f
  refine ⟨hQ.2, fun a v h => ?_, fun a h => ?_⟩
  · rw [runService_append_one]; exact g1 a v h
  · rw [runService_append_one]; exact g2 a h

/-- Witness for C7 amended: after the two-frame non-XANTREX completion run,
0x42 is in the skip set and still registered, and both facts persist when
one more (empty) frame is appended. -/
theorem c7_registry_skip_amended_witness :
    alookup (runService initState
      [⟨0xECFF42, [0x20, 5, 0, 1, 0xFF, 0, 0, 0], 0⟩,
       ⟨0xEBFF42, [1, 72, 69, 76, 76, 79, 0, 0], 1⟩]).xantrex_sources 0x42 ≠
      none ∧
    alookup (runService initState
      ([⟨0xECFF42, [0x20, 5, 0, 1, 0xFF, 0, 0, 0], 0⟩,
        ⟨0xEBFF42, [1, 72, 69, 76, 76, 79, 0, 0], 1⟩] ++
       [⟨0, [], 0⟩])).xantrex_sources 0x42 = some 129 ∧
    0x42 ∈ (runService initState
      ([⟨0xECFF42, [0x20, 5, 0, 1, 0xFF, 0, 0, 0], 0⟩,
        ⟨0xEBFF42, [1, 72, 69, 76, 76, 79, 0, 0], 1⟩] ++
       [⟨0, [], 0⟩])).SA_toSkip := by
  have h1 : decompose_dgn 0xECFF42 = 0xECFF := by decide
  have h2 : decompose_src 0xECFF42 = 0x42 := by decide
  have h3 : decompose_dgn 0xEBFF42 = 0xEBFF := by decide
  have h4 : decompose_src 0xEBFF42 = 0x42 := by decide
  have hcx : containsXantrex [72, 69, 76, 76, 79] = false := by decide
  have hskip : 0x42 ∈ (runService initState
      [⟨0xECFF42, [0x20, 5, 0, 1, 0xFF, 0, 0, 0], 0⟩,
       ⟨0xEBFF42, [1, 72, 69, 76, 76, 79, 0, 0], 1⟩]).SA_toSkip := by
    norm_num [runService, handle_can_frame, process_multiFrames, dispatchPart,
      trackUnmapped, h1, h2, h3, h4, hcx, initState, alookup, ainsert, aerase,
      List.foldl, Option.some_ne_none, List.cons_ne_nil, reduceCtorEq]
  have hsrc : alookup (runService initState
      [⟨0xECFF42, [0x20, 5, 0, 1, 0xFF, 0, 0, 0], 0⟩,
       ⟨0xEBFF42, [1, 72, 69, 76, 76, 79, 0, 0], 1⟩]).xantrex_sources 0x42 =
      some 129 := by
    norm_num [runService, handle_can_frame, process_multiFrames, dispatchPart,
      trackUnmapped, h1, h2, h3, h4, hcx, initState, alookup, ainsert, aerase,
      List.foldl, Option.some_ne_none, List.cons_ne_nil, reduceCtorEq]
  obtain ⟨w1, w2, w3⟩ := c7_registry_skip_amended
    [⟨0xECFF42, [0x20, 5, 0, 1, 0xFF, 0, 0, 0], 0⟩,
     ⟨0xEBFF42, [1, 72, 69, 76, 76, 79, 0, 0], 1⟩]
    ⟨0, [], 0⟩
  exact ⟨w1 0x42 hskip, w2 0x42 129 hsrc, w3 0x42 hskip⟩

theorem trackUnmapped_events (s : SvcState) (d : ℕ) :
    (trackUnmapped s d).unmapped_events = s.unmapped_events ++ [d] := by
  unfold trackUnmapped
  split <;> rfl

theorem trackUnmapped_tracker_congr (s s' : SvcState) (d : ℕ)
    (h : trackerOf s = trackerOf s') :
    trackerOf (trackUnmapped s d) = trackerOf (trackUnmapped s' d) := by
  have h1 : s.unmapped_counts = s'.unmapped_counts := congrArg Prod.fst h
  have h2 : s.unmapped_seen = s'.unmapped_seen := congrArg (Prod.fst ∘ Prod.snd) h
  have h3 : s.first_seen_log = s'.first_seen_log :=
    congrArg (Prod.fst ∘ Prod.snd ∘ Prod.snd) h
  have h4 : s.unmapped_events = s'.unmapped_events :=
    congrArg (Prod.snd ∘ Prod.snd ∘ Prod.snd) h
  simp only [trackUnmapped, trackerOf, h1, h2, h3, h4]
  by_cases hd : d ∈ s'.unmapped_seen <;> simp [hd]

theorem dispatchPart_tracker (s : SvcState) (dgn : ℕ) (data : Bytes) :
    trackerOf (dispatchPart s dgn data) = trackerOf s ∨
    trackerOf (dispatchPart s dgn data) = trackerOf (trackUnmapped s dgn) := by
  unfold dispatchPart
  split
  · exact Or.inl rfl
  · split
    · exact Or.inl rfl
    · exact Or.inr rfl

/-- Each `handle_can_frame` step either leaves the unmapped tracker alone or
applies the unmapped-branch update for the frame's DGN. -/
theorem handle_tracker_cases (st : SvcState) (f : CanFrame) :
    trackerOf (handle_can_frame st f).1 = trackerOf st ∨
    trackerOf (handle_can_frame st f).1 =
      trackerOf (trackUnmapped st (decompose_dgn f.can_id)) := by
  have hpm : ∀ (s1 : SvcState), trackerOf s1 = trackerOf st →
      trackerOf (process_multiFrames s1 (decompose_dgn f.can_id)
        (decompose_src f.can_id) f.data f.now).1 = trackerOf st := by
    intro s1 hs1
    obtain ⟨_, e2, e3, e4, e5, _, _⟩ := process_multiFrames_effects s1
      (decompose_dgn f.can_id) (decompose_src f.can_id) f.data f.now
    rw [← hs1]
    simp only [trackerOf, e2, e3, e4, e5]
  unfold handle_can_frame
  dsimp only
  split
  · exact Or.inl rfl
  · split
    · split
      · split
        · split
          · exact Or.inl rfl
          · exact Or.inl rfl
        · exact Or.inl rfl
      · exact Or.inl rfl
    · by_cases hemp : st.xantrex_sources = []
      · simp only [if_pos hemp]
        split
        · exact Or.inl rfl
        · split
          · split
            · exact Or.inl (hpm _ rfl)
            · rcases dispatchPart_tracker (process_multiFrames
                  { st with requests_sent := st.requests_sent + 1 }
                  (decompose_dgn f.can_id) (decompose_src f.can_id)
                  f.data f.now).1 (decompose_dgn f.can_id) f.data with hd | hd
              · exact Or.inl (hd.trans (hpm _ rfl))
              · exact Or.inr (hd.trans
                  (trackUnmapped_tracker_congr _ _ _ (hpm _ rfl)))
          · rcases dispatchPart_tracker
                { st with requests_sent := st.requests_sent + 1 }
                (decompose_dgn f.can_id) f.data with hd | hd
            · exact Or.inl hd
            · exact Or.inr (hd.trans (trackUnmapped_tracker_congr _ _ _ rfl))
      · simp only [if_neg hemp]
        split
        · exact Or.inl rfl
        · split
          · split
            · exact Or.inl (hpm _ rfl)
            · rcases dispatchPart_tracker (process_multiFrames st
                  (decompose_dgn f.can_id) (decompose_src f.can_id)
                  f.data f.now).1 (decompose_dgn f.can_id) f.data with hd | hd
              · exact Or.inl (hd.trans (hpm _ rfl))
              · exact Or.inr (hd.trans
                  (trackUnmapped_tracker_congr _ _ _ (hpm _ rfl)))
          · rcases dispatchPart_tracker st (decompose_dgn f.can_id) f.data with hd | hd
            · exact Or.inl hd
            · exact Or.inr hd

/-- Run-level preservation of a tracker-only invariant. -/
theorem runService_tracker_inv
    (T : List (ℕ × ℕ) × List ℕ × List ℕ × List ℕ → Prop)
    (hstep : ∀ (s : SvcState) (dgn : ℕ), T (trackerOf s) →
      T (trackerOf (trackUnmapped s dgn)))
    (st : SvcState) (fs : List CanFrame) (h : T (trackerOf st)) :
    T (trackerOf (runService st fs)) := by
  induction fs generalizing st with
  | nil => exact h
  | cons f t ih =>
    rcases handle_tracker_cases st f with he | he
    · exact ih _ (he ▸ h)
    · exact ih _ (he ▸ hstep st _ h)

/-- A run only ever appends to the ghost unmapped-event log. -/
theorem runService_events_extend (st : SvcState) (fs : List CanFrame) :
    ∃ l, (runService st fs).unmapped_events = st.unmapped_events ++ l := by
  induction fs generalizing st with
  | nil => exact ⟨[], by simp [runService]⟩
  | cons f t ih =>
    have step : ∃ l0, (handle_can_frame st f).1.unmapped_events =
        st.unmapped_events ++ l0 := by
      rcases handle_tracker_cases st f with he | he
      · exact ⟨[], by
          simpa using congrArg (Prod.snd ∘ Prod.snd ∘ Prod.snd) he⟩
      · refine ⟨[decompose_dgn f.can_id], ?_⟩
        have := congrArg (Prod.snd ∘ Prod.snd ∘ Prod.snd) he
        simpa [trackerOf, trackUnmapped_events] using this
    obtain ⟨l0, hl0⟩ := step
    obtain ⟨l1, hl1⟩ := ih (handle_can_frame st f).1
    exact ⟨l0 ++ l1, by
      show (runService (handle_can_frame st f).1 t).unmapped_events = _
      rw [hl1, hl0, List.append_assoc]⟩

/-- Run-level preservation of a tracker-only invariant whose unmapped-branch
step may rely on the number of distinct unmapped DGNs staying within the
cap over the whole run. -/
theorem runService_tracker_inv_bounded
    (T : List (ℕ × ℕ) × List ℕ × List ℕ × List ℕ → Prop)
    (hstep : ∀ (s : SvcState) (dgn : ℕ), T (trackerOf s) →
      (s.unmapped_events ++ [dgn]).toFinset.card ≤ MAX_UNMAPPED_DGNS →
      T (trackerOf (trackUnmapped s dgn)))
    (st : SvcState) (fs : List CanFrame) (h : T (trackerOf st))
    (hbound : (runService st fs).unmapped_events.toFinset.card ≤
      MAX_UNMAPPED_DGNS) :
    T (trackerOf (runService st fs)) := by
  induction fs generalizing st with
  | nil => exact h
  | cons f t ih =>
    rcases handle_tracker_cases st f with he | he
    · exact ih _ (he ▸ h) hbound
    · refine ih _ (he ▸ hstep st _ h ?_) hbound
      have hev : (handle_can_frame st f).1.unmapped_events =
          st.unmapped_events ++ [decompose_dgn f.can_id] := by
        have hh := congrArg (Prod.snd ∘ Prod.snd ∘ Prod.snd) he
        simpa [trackerOf, trackUnmapped_events] using hh
      obtain ⟨l, hl⟩ := runService_events_extend (handle_can_frame st f).1 t
      have hsub : (st.unmapped_events ++ [decompose_dgn f.can_id]).toFinset ⊆
          (runService (handle_can_frame st f).1 t).unmapped_events.toFinset := by
        rw [hl, hev]
        intro x hx
        simp only [List.mem_toFinset] at hx ⊢
        exact List.mem_append_left _ hx
      exact le_trans (Finset.card_le_card hsub) hbound

set_option maxRecDepth 40000 in
/-- C9 does not hold as stated: the DGN→count mapping itself is not capped.
Feeding 101 distinct unmapped DGNs leaves 101 entries in
`unmapped_counts`, exceeding `MAX_UNMAPPED_DGNS = 100` (only the companion
`unmapped_seen` set is capped). -/
theorem c9_counterexample :
    ¬ (∀ fs : List CanFrame,
        (runService initState fs).unmapped_counts.length ≤ MAX_UNMAPPED_DGNS) := by
  intro hcl
  have h := hcl ((List.range 101).map
    (fun i => ⟨((0x30000 + i) <<< 8) ||| 0x42, [0, 0, 0, 0, 0, 0, 0, 0], 0⟩))
  exact absurd h (by decide)

/-- C9 amended: the seen-set that gates the "first seen" log is capped at
`MAX_UNMAPPED_DGNS`, the DGN→count mapping itself is unbounded and its
counter increments on every occurrence (the count equals the number of
unmapped occurrences of that DGN), and "first seen" is logged exactly once
per distinct unmapped DGN provided the number of distinct unmapped DGNs in
the run stays within the cap (beyond it, `set.pop()` eviction can repeat
the log). -/
theorem c9_unmapped_tracker_amended (fs : List CanFrame) :
    (runService initState fs).unmapped_seen.length ≤ MAX_UNMAPPED_DGNS ∧
    (∀ d, (alookup (runService initState fs).unmapped_counts d).getD 0 =
      (runService initState fs).unmapped_events.count d) ∧
    ((runService initState fs).unmapped_events.toFinset.card ≤
        MAX_UNMAPPED_DGNS →
      ∀ d, (runService initState fs).first_seen_log.count d =
        if d ∈ (runService initState fs).unmapped_events then 1 else 0) := by
  refine ⟨?_, ?_, ?_⟩
  · exact runService_tracker_inv (fun t => t.2.1.length ≤ MAX_UNMAPPED_DGNS)
      (by
        intro s dgn h
        simp only [trackerOf] at h
        simp only [trackerOf, trackUnmapped]
        split
        · simpa using h
        · dsimp only
          split
          · rename_i hlen
            simp only [List.length_tail, List.length_append,
              List.length_singleton] at *
            omega
          · rename_i hlen
            simp only [List.length_append, List.length_singleton] at *
            omega)
      initState fs (by simp [trackerOf, initState, MAX_UNMAPPED_DGNS])
  · exact runService_tracker_inv
      (fun t => ∀ d, (alookup t.1 d).getD 0 = t.2.2.2.count d)
      (by
        intro s dgn h d
        simp only [trackerOf] at h
        simp only [trackerOf, trackUnmapped]
        have hcore : (alookup (ainsert s.unmapped_counts dgn
            ((alookup s.unmapped_counts dgn).getD 0 + 1)) d).getD 0 =
            (s.unmapped_events ++ [dgn]).count d := by
          rw [alookup_ainsert]
          by_cases hk : dgn = d
          · subst hk
            simp [List.count_append, h dgn]
          · rw [if_neg hk]
            have hzero : List.count d [dgn] = 0 := by
              simp only [List.count_singleton', beq_iff_eq]
              exact if_neg hk
            rw [List.count_append, h d, hzero]
            omega
        split <;> exact hcore)
      initState fs (by simp [trackerOf, initState, alookup])
  · intro hbound
    have h := runService_tracker_inv_bounded
      (fun t => t.2.1.Nodup ∧ (∀ d, d ∈ t.2.1 ↔ d ∈ t.2.2.2) ∧
        (∀ d, t.2.2.1.count d = if d ∈ t.2.2.2 then 1 else 0))
      (by
        intro s dgn hT hb
        obtain ⟨hnd, hiff, hcnt⟩ := hT
        simp only [trackerOf] at hnd hiff hcnt
        simp only [trackerOf, trackUnmapped]
        split
        · rename_i hmem
          refine ⟨hnd, ?_, ?_⟩
          · intro d
            rw [hiff d]
            constructor
            · exact fun hd => List.mem_append_left _ hd
            · intro hd
              rcases List.mem_append.mp hd with hd | hd
              · exact hd
              · rw [List.mem_singleton] at hd
                subst hd
                exact (hiff d).mp hmem
          · intro d
            rw [hcnt d]
            by_cases hde : d ∈ s.unmapped_events
            · rw [if_pos hde, if_pos (List.mem_append_left _ hde)]
            · rw [if_neg hde, if_neg]
              intro hd
              rcases List.mem_append.mp hd with hd | hd
              · exact hde hd
              · rw [List.mem_singleton] at hd
                subst hd
                exact hde ((hiff d).mp hmem)
        · rename_i hmem
          have hdgn_ev : dgn ∉ s.unmapped_events := fun hc => hmem ((hiff dgn).mpr hc)
          have hsets : s.unmapped_seen.toFinset = s.unmapped_events.toFinset := by
            ext x
            simp only [List.mem_toFinset]
            exact hiff x
          have hlenx : s.unmapped_seen.length = s.unmapped_events.toFinset.card := by
            rw [← hsets]
            exact (List.toFinset_card_of_nodup hnd).symm
          have hcard : (s.unmapped_events ++ [dgn]).toFinset.card =
              s.unmapped_events.toFinset.card + 1 := by
            rw [List.toFinset_append]
            have hone : ([dgn] : List ℕ).toFinset = {dgn} := by simp
            rw [hone, Finset.union_comm, ← Finset.insert_eq,
              Finset.card_insert_of_not_mem (by
                simp only [List.mem_toFinset]
                exact hdgn_ev)]
          have hnopop : ¬ MAX_UNMAPPED_DGNS < (s.unmapped_seen ++ [dgn]).length := by
            simp only [List.length_append, List.length_singleton]
            rw [hcard] at hb
            omega
          dsimp only
          rw [if_neg hnopop]
          refine ⟨?_, ?_, ?_⟩
          · exact List.Nodup.append hnd (List.nodup_singleton dgn)
              (by
                intro x hx hy
                rw [List.mem_singleton] at hy
                subst hy
                exact hmem hx)
          · intro d
            simp only [List.mem_append]
            rw [hiff d]
          · intro d
            by_cases hk : dgn = d
            · subst hk
              have hlog : s.first_seen_log.count dgn = 0 := by
                rw [hcnt dgn, if_neg hdgn_ev]
              rw [List.count_append, hlog,
                if_pos (List.mem_append_right _ (List.mem_singleton_self dgn))]
              simp
            · have hzero : List.count d [dgn] = 0 := by
                simp only [List.count_singleton', beq_iff_eq]
                exact if_neg hk
              rw [List.count_append, hzero, hcnt d]
              by_cases hde : d ∈ s.unmapped_events
              · rw [if_pos hde, if_pos (List.mem_append_left _ hde)]
              · rw [if_neg hde, if_neg]
                intro hd
                rcases List.mem_append.mp hd with hd | hd
                · exact hde hd
                · rw [List.mem_singleton] at hd
                  exact hk hd.symm)
      initState fs
      (by
        refine ⟨by simp [trackerOf, initState], ?_, ?_⟩ <;>
          simp [trackerOf, initState])
      hbound
    exact h.2.2

/-- Witness for C9 amended: one unmapped frame (DGN 0x30000 from source
0x42) yields a seen-set within the cap, a count equal to the one unmapped
occurrence, and one "first seen" log entry. -/
theorem c9_unmapped_tracker_amended_witness :
    (runService initState
      [⟨(0x30000 <<< 8) ||| 0x42, [0, 0, 0, 0, 0, 0, 0, 0], 0⟩]).unmapped_seen.length ≤
        MAX_UNMAPPED_DGNS ∧
    (alookup (runService initState
      [⟨(0x30000 <<< 8) ||| 0x42, [0, 0, 0, 0, 0, 0, 0, 0], 0⟩]).unmapped_counts
        0x30000).getD 0 =
      (runService initState
        [⟨(0x30000 <<< 8) ||| 0x42, [0, 0, 0, 0, 0, 0, 0, 0], 0⟩]).unmapped_events.count
          0x30000 ∧
    (runService initState
      [⟨(0x30000 <<< 8) ||| 0x42, [0, 0, 0, 0, 0, 0, 0, 0], 0⟩]).first_seen_log.count
        0x30000 =
      if 0x30000 ∈ (runService initState
        [⟨(0x30000 <<< 8) ||| 0x42, [0, 0, 0, 0, 0, 0, 0, 0], 0⟩]).unmapped_events
      then 1 else 0 :=
  ⟨(c9_unmapped_tracker_amended
      [⟨(0x30000 <<< 8) ||| 0x42, [0, 0, 0, 0, 0, 0, 0, 0], 0⟩]).1,
   (c9_unmapped_tracker_amended
      [⟨(0x30000 <<< 8) ||| 0x42, [0, 0, 0, 0, 0, 0, 0, 0], 0⟩]).2.1 0x30000,
   (c9_unmapped_tracker_amended
      [⟨(0x30000 <<< 8) ||| 0x42, [0, 0, 0, 0, 0, 0, 0, 0], 0⟩]).2.2 (by decide)
      0x30000⟩

/-- C8: for every (power-point, voltage-point, current-point) triple of the
derived-value engine's `compute_power`: when both source points hold present
values `v` and `i` (and the power point is registered, as every engine
target is), the power point is written with `round(v × i, 1)` and nothing
else changes; when either source point is absent — unregistered or holding
the `None`/`[]` placeholder — the sink is not written at all. -/
theorem c8_compute_power (sink : Sink) (dst_path v_path c_path : String) :
    (∀ v i, alookup sink v_path = some (some v) →
      alookup sink c_path = some (some i) →
      alookup sink dst_path ≠ none →
      compute_power sink dst_path v_path c_path =
        ainsert sink dst_path (some (pyRound (v * i) 1))) ∧
    ((alookup sink v_path).getD none = none ∨
      (alookup sink c_path).getD none = none →
      compute_power sink dst_path v_path c_path = sink) := by
  constructor
  · intro v i hv hc hdst
    unfold compute_power
    rw [hv, hc]
    dsimp only
    rw [if_neg hdst]
  · intro habs
    unfold compute_power
    rcases hv : alookup sink v_path with _ | ov
    · rfl
    · rcases hc : alookup sink c_path with _ | oc
      · cases ov <;> rfl
      · rw [hv, hc] at habs
        rcases ov with _ | v
        · rfl
        · rcases oc with _ | i
          · rfl
          · simp at habs

/-- Witness for C8: voltage 120 and current 5 sunk at the two source points
yield exactly 600.0 at the power point; with the current point unregistered
nothing is written. -/
theorem c8_compute_power_witness :
    compute_power
        [("/Dc/0/Voltage", some 120), ("/Dc/0/Current", some 5),
          ("/Dc/0/Power", none)]
        "/Dc/0/Power" "/Dc/0/Voltage" "/Dc/0/Current" =
      ainsert
        [("/Dc/0/Voltage", some 120), ("/Dc/0/Current", some 5),
          ("/Dc/0/Power", none)]
        "/Dc/0/Power" (some (pyRound (120 * 5) 1)) ∧
    pyRound ((120 : ℚ) * 5) 1 = 600 ∧
    compute_power [("/Dc/0/Voltage", some 120), ("/Dc/0/Power", some 0)]
        "/Dc/0/Power" "/Dc/0/Voltage" "/Dc/0/Current" =
      [("/Dc/0/Voltage", some 120), ("/Dc/0/Power", some 0)] := by
  refine ⟨?_, ?_, ?_⟩
  · exact (c8_compute_power
      [("/Dc/0/Voltage", some 120), ("/Dc/0/Current", some 5),
        ("/Dc/0/Power", none)]
      "/Dc/0/Power" "/Dc/0/Voltage" "/Dc/0/Current").1 120 5
      (by decide) (by decide) (by decide)
  · have h1 : ((120 : ℚ) * 5) * 10 ^ 1 = ((6000 : ℤ) : ℚ) := by norm_num
    rw [pyRound, pyRoundInt, h1]
    rw [Int.floor_intCast]
    norm_num
  · exact (c8_compute_power
      [("/Dc/0/Voltage", some 120), ("/Dc/0/Power", some 0)]
      "/Dc/0/Power" "/Dc/0/Voltage" "/Dc/0/Current").2
      (Or.inr (by decide))

/-- C10: per-entry failures never abort a frame's fan-out or the process:
every dispatch-table entry of a frame's DGN produces exactly one outcome
(the outcome list has one entry per table entry, whatever mix of decoder
exceptions, absent values, missing sink registrations, quirk skips and send
errors occurs); a decoder exception on one entry merely bumps the error
counter and the remaining entries are dispatched exactly as before; and the
frame handler returns normally (`True`) on every path. -/
theorem c10_dispatch_fanout :
    (∀ (dgn src primary : ℕ) (writeOk : String → Bool) (data : Bytes)
        (ds : DispatchState) (items : List DispatchItem),
      (dispatchItems dgn src primary writeOk data ds items).2.length =
        items.length) ∧
    (∀ (dgn src primary : ℕ) (writeOk : String → Bool) (data : Bytes)
        (ds : DispatchState) (item : DispatchItem) (rest : List DispatchItem)
        (msg : String),
      item.decoder data = .error msg →
      dispatchItems dgn src primary writeOk data ds (item :: rest) =
        ((dispatchItems dgn src primary writeOk data
            { ds with error_count := ds.error_count + 1 } rest).1,
          ItemOutcome.decodeError :: (dispatchItems dgn src primary writeOk data
            { ds with error_count := ds.error_count + 1 } rest).2)) ∧
    (∀ (st : SvcState) (f : CanFrame), (handle_can_frame st f).2 = true) := by
  refine ⟨?_, ?_, ?_⟩
  · intro dgn src primary writeOk data ds items
    induction items generalizing ds with
    | nil => rfl
    | cons item rest ih =>
      show ((dispatchItems dgn src primary writeOk data _ rest).1,
        _ :: (dispatchItems dgn src primary writeOk data _ rest).2).2.length = _
      simp only [List.length_cons, ih]
  · intro dgn src primary writeOk data ds item rest msg hfail
    show ((dispatchItems dgn src primary writeOk data
        (processItem dgn src primary writeOk data ds item).1 rest).1,
      (processItem dgn src primary writeOk data ds item).2 ::
        (dispatchItems dgn src primary writeOk data
          (processItem dgn src primary writeOk data ds item).1 rest).2) = _
    unfold processItem
    rw [hfail]
  · intro st f
    unfold handle_can_frame
    dsimp only
    repeat' split
    all_goals rfl

/-- Witness for C10: a single-entry table whose decoder raises yields one
outcome (`decodeError`), dispatching continues past it with only the error
counter bumped, and the handler returns `True` on a concrete frame. -/
theorem c10_dispatch_fanout_witness :
    (dispatchItems 0 0 0 (fun _ => true) [] ⟨[], [], 0⟩
        [⟨"/X", fun _ => Except.error "boom", "", "", SinkId.inverter⟩]).2.length =
      1 ∧
    dispatchItems 0 0 0 (fun _ => true) [] ⟨[], [], 0⟩
        [⟨"/X", fun _ => Except.error "boom", "", "", SinkId.inverter⟩] =
      ((dispatchItems 0 0 0 (fun _ => true) [] ⟨[], [], 0 + 1⟩ []).1,
        ItemOutcome.decodeError ::
          (dispatchItems 0 0 0 (fun _ => true) [] ⟨[], [], 0 + 1⟩ []).2) ∧
    (handle_can_frame initState ⟨0, [], 0⟩).2 = true :=
  ⟨c10_dispatch_fanout.1 0 0 0 (fun _ => true) [] ⟨[], [], 0⟩
      [⟨"/X", fun _ => Except.error "boom", "", "", SinkId.inverter⟩],
   c10_dispatch_fanout.2.1 0 0 0 (fun _ => true) [] ⟨[], [], 0⟩
      ⟨"/X", fun _ => Except.error "boom", "", "", SinkId.inverter⟩ [] "boom" rfl,
   c10_dispatch_fanout.2.2 initState ⟨0, [], 0⟩⟩

end Xantrex
